import Mathlib

/-!
Verification of the Protein Structure Finder pipeline (`src/prot.py`).

The program is a dashboard around four pure cores: a two-stage hybrid search
(`search_entries`), a concurrent metadata enricher (`fetch_all_metadata` /
`fetch_one`), a predicate filter chain over the enriched records, and a
ranking / archive-export step (`top3`, the zip-building loops).

All HTTP interaction is modelled by environments: a request's outcome is a
value of an inductive type recording whether the call raised an exception
(`requests` raising, or `.json()` failing to parse), returned a non-success
HTTP status (`r.ok` false), or returned parsed data.  Python floats carrying
resolution values are modelled as rationals; Python `None` as `Option.none`.
Record order produced by the thread pool is completion order in the code and
therefore unspecified; the sequential order used here is one admissible
completion order, and the theorems about the enricher are stated in
order-independent form (membership, not positions).
-/

namespace Prot

/-- True when the first char list is an initial segment of the second. -/
def startsWithChars : List Char → List Char → Bool
  | [], _ => true
  | _ :: _, [] => false
  | a :: as, b :: bs => a == b && startsWithChars as bs

/-- Substring occurrence on char lists; models Python's `needle in hay` and
pandas `.str.contains` for the literal (metacharacter-free) patterns the
program uses. -/
def containsChars (needle : List Char) : List Char → Bool
  | [] => needle.isEmpty
  | b :: bs => startsWithChars needle (b :: bs) || containsChars needle bs

/-- Lower-casing of a char list, models Python case folding for the ASCII
method names the program compares. -/
def lowerChars (cs : List Char) : List Char := cs.map Char.toLower

/-- Case-sensitive substring test on strings (pandas `.str.contains(pat)`). -/
def strContains (hay needle : String) : Bool := containsChars needle.data hay.data

/-- Case-insensitive substring test (pandas `.str.contains(pat, case=False)`). -/
def strContainsCI (hay needle : String) : Bool :=
  containsChars (lowerChars needle.data) (lowerChars hay.data)

/-- Code-point lexicographic order on char lists: Python string comparison. -/
def charLeb : List Char → List Char → Bool
  | [], _ => true
  | _ :: _, [] => false
  | a :: as, b :: bs => if a == b then charLeb as bs else decide (a.toNat < b.toNat)

/-- Python `s <= t` on strings. -/
def strLe (s t : String) : Bool := charLeb s.data t.data

/-- Ordered insertion for `sortStrings`. -/
def insertStr (s : String) : List String → List String
  | [] => [s]
  | t :: ts => if strLe s t then s :: t :: ts else t :: insertStr s ts

/-- Python `sorted` on a collection of strings (code-point order). -/
def sortStrings : List String → List String
  | [] => []
  | s :: ss => insertStr s (sortStrings ss)

/-- One flat enriched record: the dict built by `fetch_one`
(`prot.py` lines 146-153). -/
structure EntryRecord where
  pdb_id : String
  title : String
  method : String
  resolution : Option ℚ
  organism : String
  chain_count : Nat
deriving DecidableEq

/-- Outcome of one search POST (`prot.py` lines 108-109 and 122-123):
`exc` models `requests.post` or `r.json()` raising (no handler in the code),
`httpErr` models a response with `r.ok` false, and `okResult ids` models a
success whose `result_set` yields the identifier list `ids`. -/
inductive Subcall where
  | exc : Subcall
  | httpErr : Subcall
  | okResult : List String → Subcall
deriving DecidableEq

/-- The list a sub-call evaluates to when it does not raise:
`[... for rec in r.json().get("result_set", [])] if r.ok else []`. -/
def runSubcall : Subcall → Except Unit (List String)
  | Subcall.exc => Except.error ()
  | Subcall.httpErr => Except.ok []
  | Subcall.okResult ids => Except.ok ids

/-- The identifier list a completed (non-raising) sub-call produced:
`[]` for an HTTP error response, the result-set identifiers otherwise. -/
def subIds : Subcall → List String
  | Subcall.exc => []
  | Subcall.httpErr => []
  | Subcall.okResult ids => ids

/-- Environment for `search_entries`: the remote endpoint's behaviour on the
precise (three-condition OR) payload and on the fallback full-text payload
built from a given query string. -/
structure SearchEnv where
  precise : String → Subcall
  fallback : String → Subcall

/-- `search_entries` (`prot.py` lines 68-126): run the precise query; if its
list is empty run the fallback full-text query, `results if results else
fallback_full_text()`.  `Except.error` models an uncaught exception escaping
the function (there is no try/except in `search_entries`). -/
def search_entries (env : SearchEnv) (query : String) : Except Unit (List String) :=
  match runSubcall (env.precise query) with
  | Except.error e => Except.error e
  | Except.ok results =>
      if results.isEmpty then runSubcall (env.fallback query) else Except.ok results

/-- The parts of one polymer-entity JSON that `fetch_one` reads:
`rcsb_entity_source_organism` as a list whose entries carry an optional
`scientific_name` (missing key modelled by `none`; a missing or null list by
`[]`, the `.get` default), and the
`rcsb_polymer_entity_container_identifiers.auth_asym_ids` list (missing
levels default to `[]` via the chained `.get` calls). -/
structure PolyJson where
  source_organism : List (Option String)
  auth_asym_ids : List String
deriving DecidableEq

/-- Outcome of one polymer-entity GET (`prot.py` line 140): an exception
(network error or unparseable body) or parsed data. -/
inductive PolyResp where
  | exc : PolyResp
  | data : PolyJson → PolyResp
deriving DecidableEq

/-- The parts of one entry JSON that `fetch_one` reads.  `exptl` is the
optional list of experiment dicts, each reduced to its optional `method`
field; `resolution_combined` nests the presence of `rcsb_entry_info` (outer
option) and of its `resolution_combined` list (inner option), the list
entries being nullable numbers; `struct_title` collapses
`ed.get("struct", {}).get("title", ...)` to one optional string;
`polymer_entity_ids` is the sub-entity id list (missing levels default to
`[]`). -/
structure EntryJson where
  exptl : Option (List (Option String))
  resolution_combined : Option (Option (List (Option ℚ)))
  struct_title : Option String
  polymer_entity_ids : List String
deriving DecidableEq

/-- Outcome of one entry GET (`prot.py` line 133). -/
inductive EntryResp where
  | exc : EntryResp
  | data : EntryJson → EntryResp

/-- `ed.get("exptl", [{}])[0].get("method", "Unknown")`: `none` models the
IndexError raised when `exptl` is present but an empty list. -/
def getMethod (ed : EntryJson) : Option String :=
  match ed.exptl with
  | none => some "Unknown"
  | some [] => none
  | some (m :: _) => some (m.getD "Unknown")

/-- `ed.get("rcsb_entry_info", {}).get("resolution_combined", [None])[0]`:
outer `none` models the IndexError on a present-but-empty list. -/
def getResolution (ed : EntryJson) : Option (Option ℚ) :=
  match ed.resolution_combined with
  | none => some none
  | some none => some none
  | some (some []) => none
  | some (some (x :: _)) => some x

/-- Organism names one polymer entity adds to `orgs`:
`if src: orgs.add(src[0].get("scientific_name", "Unknown"))`. -/
def orgContrib (pd : PolyJson) : List String :=
  match pd.source_organism with
  | [] => []
  | s :: _ => [s.getD "Unknown"]

/-- The per-entity loop of `fetch_one` (`prot.py` lines 139-145): visit the
sub-entity ids in order, accumulating organism names and chain labels;
`none` when any polymer-entity request raises (the exception aborts the
whole chain). -/
def collectEntities (poly : String → PolyResp) : List String → Option (List String × List String)
  | [] => some ([], [])
  | ent :: rest =>
    match poly ent with
    | PolyResp.exc => none
    | PolyResp.data pd =>
      match collectEntities poly rest with
      | none => none
      | some (os, cs) => some (orgContrib pd ++ os, pd.auth_asym_ids ++ cs)

/-- `", ".join(sorted(orgs)) or "Unknown"`: the comma-join of the sorted
distinct names, with the falsy empty string replaced by `"Unknown"`. -/
def orgJoin (orgs : List String) : String :=
  let s := String.intercalate ", " (sortStrings orgs.dedup)
  if s = "" then "Unknown" else s

/-- `fetch_one` (`prot.py` lines 131-155): build one record from the entry
response and the per-sub-entity responses; the enclosing `try/except` turns
any exception anywhere in the chain into `None`. -/
def fetch_one (eid : String) (entry : EntryResp) (poly : String → PolyResp) :
    Option EntryRecord :=
  match entry with
  | EntryResp.exc => none
  | EntryResp.data ed =>
    match getMethod ed, getResolution ed, collectEntities poly ed.polymer_entity_ids with
    | some m, some res, some (os, cs) =>
      some { pdb_id := eid
             title := ed.struct_title.getD "No Title"
             method := m
             resolution := res
             organism := orgJoin os
             chain_count := cs.dedup.length }
    | _, _, _ => none

/-- Environment for the enricher: per-entry response, and per-entry,
per-sub-entity polymer responses. -/
structure FetchEnv where
  entry : String → EntryResp
  poly : String → String → PolyResp

/-- `fetch_all_metadata` (`prot.py` lines 130-163): fetch every identifier
independently and keep the non-`None` results.  The thread pool collects
rows in completion order, which the code leaves unspecified; input order is
used here as one admissible completion order, and the theorems below only
use order-independent consequences. -/
def fetch_all_metadata (ids : List String) (env : FetchEnv) : List EntryRecord :=
  ids.filterMap (fun eid => fetch_one eid (env.entry eid) (env.poly eid))

/-- The sidebar filter settings (`prot.py` lines 178-181). -/
structure FilterConfig where
  only_human : Bool
  monomer_only : Bool
  method_filter : String
  max_res : ℚ

/-- The final, unconditional resolution predicate
`df["Resolution (Å)"].notnull() & (df["Resolution (Å)"] <= max_res)`. -/
def resKeep (ceil : ℚ) (r : EntryRecord) : Bool :=
  match r.resolution with
  | none => false
  | some x => decide (x ≤ ceil)

/-- The filter chain of the main logic (`prot.py` lines 197-204): three
conditional predicates, then the always-applied resolution predicate. -/
def filterRecords (cfg : FilterConfig) (records : List EntryRecord) : List EntryRecord :=
  let df := records
  let df := if cfg.only_human then
              df.filter (fun r => strContains r.organism "Homo sapiens") else df
  let df := if cfg.monomer_only then df.filter (fun r => r.chain_count == 1) else df
  let df := if cfg.method_filter ≠ "Any" then
              df.filter (fun r => strContainsCI r.method cfg.method_filter) else df
  df.filter (resKeep cfg.max_res)

/-- Ascending-with-nulls-last comparison used by
`sort_values("Resolution (Å)")` (pandas puts NaN last). -/
def resLE : Option ℚ → Option ℚ → Bool
  | none, none => true
  | none, some _ => false
  | some _, none => true
  | some x, some y => decide (x ≤ y)

/-- The sort relation on records for `sort_values("Resolution (Å)")`. -/
def recLE (a b : EntryRecord) : Prop := resLE a.resolution b.resolution = true

instance : DecidableRel recLE := fun _ _ => inferInstanceAs (Decidable (_ = true))

/-- `top3` (`prot.py` lines 228-232): restrict to methods containing
`"X-RAY"` case-insensitively, sort ascending by resolution, take the first
three.  `sort_values` leaves the order of equal keys unspecified
(quicksort); insertion sort realises one admissible order, and the theorems
below do not depend on tie order. -/
def rank (records : List EntryRecord) : List EntryRecord :=
  (List.insertionSort recLE
    (records.filter (fun r => strContainsCI r.method "X-RAY"))).take 3

/-- The archive-building loop (`prot.py` lines 237-241 and 245-249): for
each identifier fetch the raw structure text and add an entry named
`{id}.pdb`; the archive is its entry list (the zip container encoding is the
external `zipfile` library).  A fetch failure is an uncaught exception
aborting the build, modelled by `Except.error`. -/
def buildArchive (fileEnv : String → Except Unit String) :
    List String → Except Unit (List (String × String))
  | [] => Except.ok []
  | pid :: rest =>
    match fileEnv pid with
    | Except.error e => Except.error e
    | Except.ok txt =>
      match buildArchive fileEnv rest with
      | Except.error e => Except.error e
      | Except.ok entries => Except.ok ((pid ++ ".pdb", txt) :: entries)

/-- The download section of the results tab (`prot.py` lines 228-253): when
`top3` is non-empty, build the full-filtered-set archive and the top-3
archive; otherwise build neither (the X-ray warning branch). -/
def downloadArchives (fileEnv : String → Except Unit String) (df : List EntryRecord) :
    Option (Except Unit (List (String × String)) × Except Unit (List (String × String))) :=
  let top3 := rank df
  if top3.isEmpty then none
  else some (buildArchive fileEnv (df.map (fun r => r.pdb_id)),
             buildArchive fileEnv (top3.map (fun r => r.pdb_id)))

/-- Boolean check that a record list is non-decreasing in resolution under
the nulls-last order. -/
def nonDecreasingRes : List EntryRecord → Bool
  | [] => true
  | [_] => true
  | a :: b :: rest => resLE a.resolution b.resolution && nonDecreasingRes (b :: rest)

/-- Chain labels one polymer response contributes (empty for the raising
case, which cannot occur on a successful chain). -/
def polyAuth : PolyResp → List String
  | PolyResp.exc => []
  | PolyResp.data pd => pd.auth_asym_ids

/-- Organism names one polymer response contributes. -/
def polyOrg : PolyResp → List String
  | PolyResp.exc => []
  | PolyResp.data pd => orgContrib pd

end Prot

namespace Prot

/-- Claim C1: for every non-empty query whose two sub-calls complete with
identifier lists, `search_entries` returns exactly the precise-query list
when it is non-empty and otherwise exactly the fallback full-text list,
never a mixture, and the result is empty iff both stages yield no results. -/
theorem c1_search_two_stage (env : SearchEnv) (q : String) (pids fids : List String)
    (hq : q ≠ "")
    (hp : env.precise q = Subcall.okResult pids)
    (hf : env.fallback q = Subcall.okResult fids) :
    search_entries env q = Except.ok (if pids.isEmpty then fids else pids) ∧
    (pids ≠ [] → search_entries env q = Except.ok pids) ∧
    (pids = [] → search_entries env q = Except.ok fids) ∧
    (search_entries env q = Except.ok [] ↔ pids = [] ∧ fids = []) := by
  rw [search_entries, hp, hf]
  cases pids <;> simp [runSubcall]

/-- Environment witnessing claim C1: an empty precise stage and a one-entry
fallback stage. -/
def envC1 : SearchEnv :=
  { precise := fun _ => Subcall.okResult []
    fallback := fun _ => Subcall.okResult ["7XYZ"] }

/-- Witness for claim C1: with an empty precise result the fallback list is
returned exactly. -/
theorem c1_search_two_stage_witness :
    search_entries envC1 "EGFR" = Except.ok ["7XYZ"] :=
  (c1_search_two_stage envC1 "EGFR" [] ["7XYZ"] (by decide) rfl rfl).2.2.1 rfl

/-- Environment refuting claim C5 as stated: the precise POST raises at the
transport level while the fallback stage would have results. -/
def envC5x : SearchEnv :=
  { precise := fun _ => Subcall.exc
    fallback := fun _ => Subcall.okResult ["1ABC"] }

/-- Counterexample to claim C5: `search_entries` has no exception handler,
so a transport-level failure (a raising `requests.post` or an unparseable
body) on the precise sub-call propagates out of the search instead of being
treated as zero results, even though the fallback stage had results. -/
theorem c5_counterexample :
    search_entries envC5x "EGFR" = Except.error () ∧
    subIds (envC5x.fallback "EGFR") = ["1ABC"] := ⟨rfl, rfl⟩

/-- Claim C5 as amended: an HTTP error response (non-success status) on
either sub-call is treated as zero results for that sub-call; provided
neither sub-call raises at the transport level, the search never raises and
its result is empty iff both stages yield zero results. -/
theorem c5_amended (env : SearchEnv) (q : String)
    (hp : env.precise q ≠ Subcall.exc) (hf : env.fallback q ≠ Subcall.exc) :
    search_entries env q =
      Except.ok (if (subIds (env.precise q)).isEmpty then subIds (env.fallback q)
                 else subIds (env.precise q)) ∧
    (search_entries env q = Except.ok [] ↔
      subIds (env.precise q) = [] ∧ subIds (env.fallback q) = []) := by
  rw [search_entries]
  rcases hpp : env.precise q with _ | _ | pids
  · exact absurd hpp hp
  · rcases hff : env.fallback q with _ | _ | fids
    · exact absurd hff hf
    · simp [runSubcall, subIds]
    · simp [runSubcall, subIds]
  · rcases hff : env.fallback q with _ | _ | fids
    · exact absurd hff hf
    · cases pids <;> simp [runSubcall, subIds]
    · cases pids <;> simp [runSubcall, subIds]

/-- Environment witnessing the amended claim C5: a non-success HTTP status
on the precise stage, results on the fallback stage. -/
def envC5w : SearchEnv :=
  { precise := fun _ => Subcall.httpErr
    fallback := fun _ => Subcall.okResult ["1ABC"] }

/-- Witness for the amended claim C5: the HTTP error response counts as
zero precise results, so the fallback list is returned without raising. -/
theorem c5_amended_witness :
    search_entries envC5w "EGFR" = Except.ok ["1ABC"] := by
  have h := (c5_amended envC5w "EGFR" (by decide) (by decide)).1
  simpa [envC5w, subIds] using h

/-- Claim C8: the archive build over an empty identifier sequence completes
without error and yields an archive with zero entries (the zip container
byte layout is produced by the external zipfile library and is not part of
this repository's code). -/
theorem c8_empty_archive (fileEnv : String → Except Unit String) :
    buildArchive fileEnv [] = Except.ok [] := rfl

end Prot

namespace Prot

/-- A record built by `fetch_one` carries the identifier it was fetched for. -/
theorem fetch_one_pdb_id {eid : String} {e : EntryResp} {poly : String → PolyResp}
    {r : EntryRecord} (h : fetch_one eid e poly = some r) : r.pdb_id = eid := by
  cases e with
  | exc => simp [fetch_one] at h
  | data ed =>
    simp only [fetch_one] at h
    split at h
    · injection h with h2
      rw [← h2]
    · cases h

/-- On a successful chain, the accumulated organism names and chain labels
are exactly the per-entity contributions concatenated in loop order. -/
theorem collectEntities_eq {poly : String → PolyResp} {ents os cs : List String}
    (h : collectEntities poly ents = some (os, cs)) :
    os = ents.flatMap (fun e => polyOrg (poly e)) ∧
    cs = ents.flatMap (fun e => polyAuth (poly e)) := by
  induction ents generalizing os cs with
  | nil =>
    simp only [collectEntities, Option.some.injEq, Prod.mk.injEq] at h
    simp [← h.1, ← h.2]
  | cons ent rest ih =>
    simp only [collectEntities] at h
    rcases hp : poly ent with _ | pd <;> rw [hp] at h
    · simp at h
    · rcases hc : collectEntities poly rest with _ | ⟨os2, cs2⟩ <;> rw [hc] at h
      · simp at h
      · simp only [Option.some.injEq, Prod.mk.injEq] at h
        obtain ⟨ho, hcs⟩ := h
        obtain ⟨iho, ihc⟩ := ih hc
        subst ho hcs
        constructor
        · simp [polyOrg, hp, iho]
        · simp [polyAuth, hp, ihc]

/-- Claim C2: an identifier whose fetch chain raises anywhere (network
error, malformed response, missing field turned IndexError) contributes no
record at all — no partial record appears, the output consists only of
fully successful records with no error value surfaced and no retry — and
the records of all other identifiers are unaffected by that identifier's
responses. -/
theorem c2_enrich_drop (ids : List String) (env env2 : FetchEnv) (eid : String)
    (hfail : fetch_one eid (env.entry eid) (env.poly eid) = none)
    (hagree : ∀ i, i ≠ eid → env.entry i = env2.entry i ∧ env.poly i = env2.poly i) :
    (∀ r ∈ fetch_all_metadata ids env, r.pdb_id ≠ eid) ∧
    (∀ r ∈ fetch_all_metadata ids env,
       ∃ i, i ∈ ids ∧ fetch_one i (env.entry i) (env.poly i) = some r) ∧
    (∀ r : EntryRecord, r.pdb_id ≠ eid →
       (r ∈ fetch_all_metadata ids env ↔ r ∈ fetch_all_metadata ids env2)) := by
  refine ⟨?_, ?_, ?_⟩
  · intro r hr
    rw [fetch_all_metadata, List.mem_filterMap] at hr
    obtain ⟨i, hi, hf⟩ := hr
    have hpid := fetch_one_pdb_id hf
    intro hcontra
    have hie : i = eid := by rw [← hpid, hcontra]
    rw [hie, hfail] at hf
    cases hf
  · intro r hr
    rw [fetch_all_metadata, List.mem_filterMap] at hr
    obtain ⟨i, hi, hf⟩ := hr
    exact ⟨i, hi, hf⟩
  · intro r hne
    rw [fetch_all_metadata, List.mem_filterMap, fetch_all_metadata, List.mem_filterMap]
    constructor
    · rintro ⟨i, hi, hf⟩
      have hie : i ≠ eid := by
        intro hcontra
        subst hcontra
        exact hne (fetch_one_pdb_id hf)
      obtain ⟨he, hp⟩ := hagree i hie
      exact ⟨i, hi, by rw [← he, ← hp]; exact hf⟩
    · rintro ⟨i, hi, hf⟩
      have hie : i ≠ eid := by
        intro hcontra
        subst hcontra
        exact hne (fetch_one_pdb_id hf)
      obtain ⟨he, hp⟩ := hagree i hie
      exact ⟨i, hi, by rw [he, hp]; exact hf⟩

/-- Well-formed entry data used by the enricher witnesses. -/
def edGood : EntryJson :=
  { exptl := some [some "X-RAY DIFFRACTION"]
    resolution_combined := some (some [some 2])
    struct_title := some "Good structure"
    polymer_entity_ids := ["1"] }

/-- Well-formed polymer-entity data used by the enricher witnesses. -/
def pdGood : PolyJson :=
  { source_organism := [some "Homo sapiens"], auth_asym_ids := ["A"] }

/-- Enricher environment where only the identifier BAD raises. -/
def envC2 : FetchEnv :=
  { entry := fun eid => if eid = "BAD" then EntryResp.exc else EntryResp.data edGood
    poly := fun _ _ => PolyResp.data pdGood }

/-- Same environment with BAD repaired; agrees with `envC2` elsewhere. -/
def envC2b : FetchEnv :=
  { entry := fun _ => EntryResp.data edGood
    poly := fun _ _ => PolyResp.data pdGood }

/-- The record `envC2` produces for a good identifier. -/
def recGood : EntryRecord :=
  { pdb_id := "1AAA", title := "Good structure", method := "X-RAY DIFFRACTION"
    resolution := some 2, organism := "Homo sapiens", chain_count := 1 }

/-- Witness for claim C2: BAD's chain raises and BAD contributes nothing,
while the good identifier's record is present independently of what
happened to BAD. -/
theorem c2_enrich_drop_witness :
    fetch_one "BAD" (envC2.entry "BAD") (envC2.poly "BAD") = none ∧
    recGood.pdb_id ≠ "BAD" ∧
    (recGood ∈ fetch_all_metadata ["1AAA", "BAD"] envC2 ↔
     recGood ∈ fetch_all_metadata ["1AAA", "BAD"] envC2b) := by
  have hag : ∀ i, i ≠ "BAD" → envC2.entry i = envC2b.entry i ∧ envC2.poly i = envC2b.poly i := by
    intro i hi
    constructor
    · show (if i = "BAD" then EntryResp.exc else EntryResp.data edGood) = EntryResp.data edGood
      rw [if_neg hi]
    · rfl
  refine ⟨rfl, by decide, ?_⟩
  exact (c2_enrich_drop ["1AAA", "BAD"] envC2 envC2b "BAD" rfl hag).2.2 recGood (by decide)

end Prot

namespace Prot

/-- Claim C6: a successfully enriched record's chain count is the number of
distinct chain labels accumulated across all of the entry's polymer
sub-entities — duplicate labels across sub-entities count once — and not
the number of sub-entities. -/
theorem c6_chain_count (eid : String) (ed : EntryJson) (poly : String → PolyResp)
    (rec : EntryRecord) (h : fetch_one eid (EntryResp.data ed) poly = some rec) :
    rec.chain_count =
      ((ed.polymer_entity_ids.flatMap (fun e => polyAuth (poly e))).dedup).length := by
  simp only [fetch_one] at h
  rcases hm : getMethod ed with _ | m <;> rw [hm] at h
  · simp at h
  · rcases hr : getResolution ed with _ | res <;> rw [hr] at h
    · simp at h
    · rcases hc : collectEntities poly ed.polymer_entity_ids with _ | ⟨os, cs⟩ <;> rw [hc] at h
      · simp at h
      · simp only [Option.some.injEq] at h
        subst h
        rw [(collectEntities_eq hc).2]

/-- Entry data for the C6 witness: two sub-entities carrying the same chain
label. -/
def edC6 : EntryJson :=
  { exptl := some [some "X-RAY DIFFRACTION"]
    resolution_combined := some (some [some 2])
    struct_title := some "Shared chain label"
    polymer_entity_ids := ["1", "2"] }

/-- Polymer responses for the C6 witness: every sub-entity reports the
single chain label A. -/
def polyC6 : String → PolyResp := fun _ =>
  PolyResp.data { source_organism := [some "Homo sapiens"], auth_asym_ids := ["A"] }

/-- The record the C6 witness environment produces. -/
def recC6 : EntryRecord :=
  { pdb_id := "2BBB", title := "Shared chain label", method := "X-RAY DIFFRACTION"
    resolution := some 2, organism := "Homo sapiens", chain_count := 1 }

/-- Witness for claim C6: two sub-entities with the same label yield chain
count 1, the distinct-label count, not the sub-entity count 2. -/
theorem c6_chain_count_witness :
    fetch_one "2BBB" (EntryResp.data edC6) polyC6 = some recC6 ∧
    recC6.chain_count =
      ((edC6.polymer_entity_ids.flatMap (fun e => polyAuth (polyC6 e))).dedup).length ∧
    recC6.chain_count = 1 ∧ edC6.polymer_entity_ids.length = 2 :=
  ⟨by decide, c6_chain_count "2BBB" edC6 polyC6 recC6 (by decide), by decide, by decide⟩

/-- Entry data refuting claim C10: one sub-entity reports the empty string
as its scientific name. -/
def edC10 : EntryJson :=
  { exptl := some [some "X-RAY DIFFRACTION"]
    resolution_combined := some (some [some 2])
    struct_title := some "Empty-named organism"
    polymer_entity_ids := ["1"] }

/-- Polymer responses refuting claim C10. -/
def polyC10 : String → PolyResp := fun _ =>
  PolyResp.data { source_organism := [some ""], auth_asym_ids := ["A"] }

/-- Counterexample to claim C10 as stated: the sub-entity does report a
source organism (the empty-string name, so the reported-name list is
non-empty), yet the record's organism field is Unknown and not the
comma-join of the sorted deduplicated reported names, which is the empty
string — the code's `or "Unknown"` replaces any falsy join, not only the
no-organism case. -/
theorem c10_counterexample :
    (fetch_one "1AAA" (EntryResp.data edC10) polyC10).map EntryRecord.organism =
      some "Unknown" ∧
    edC10.polymer_entity_ids.flatMap (fun e => polyOrg (polyC10 e)) = [""] ∧
    String.intercalate ", "
      (sortStrings ((edC10.polymer_entity_ids.flatMap
        (fun e => polyOrg (polyC10 e))).dedup)) = "" ∧
    ("Unknown" : String) ≠ "" :=
  ⟨by decide, by decide, by decide, by decide⟩

/-- Claim C10 as amended: for every successfully enriched entry the
organism field is the comma-join of the sorted deduplicated reported
organism names, except that a falsy (empty) join — no organism reported at
all, or only the empty-string name — is replaced by Unknown. -/
theorem c10_amended (eid : String) (ed : EntryJson) (poly : String → PolyResp)
    (rec : EntryRecord) (h : fetch_one eid (EntryResp.data ed) poly = some rec) :
    rec.organism =
      (if String.intercalate ", "
            (sortStrings ((ed.polymer_entity_ids.flatMap
              (fun e => polyOrg (poly e))).dedup)) = ""
       then "Unknown"
       else String.intercalate ", "
            (sortStrings ((ed.polymer_entity_ids.flatMap
              (fun e => polyOrg (poly e))).dedup))) ∧
    (ed.polymer_entity_ids.flatMap (fun e => polyOrg (poly e)) = [] →
      rec.organism = "Unknown") := by
  simp only [fetch_one] at h
  rcases hm : getMethod ed with _ | m <;> rw [hm] at h
  · simp at h
  · rcases hr : getResolution ed with _ | res <;> rw [hr] at h
    · simp at h
    · rcases hc : collectEntities poly ed.polymer_entity_ids with _ | ⟨os, cs⟩ <;> rw [hc] at h
      · simp at h
      · simp only [Option.some.injEq] at h
        subst h
        have hos := (collectEntities_eq hc).1
        constructor
        · simp only [orgJoin, hos]
        · intro hb
          rw [hos, hb]
          show orgJoin [] = "Unknown"
          decide

/-- Entry data for the amended C10 witness: two sub-entities with distinct
real organism names. -/
def edC10w : EntryJson :=
  { exptl := some [some "X-RAY DIFFRACTION"]
    resolution_combined := some (some [some 2])
    struct_title := some "Two organisms"
    polymer_entity_ids := ["1", "2"] }

/-- Polymer responses for the amended C10 witness. -/
def polyC10w : String → PolyResp := fun e =>
  if e = "1" then
    PolyResp.data { source_organism := [some "Mus musculus"], auth_asym_ids := ["A"] }
  else
    PolyResp.data { source_organism := [some "Homo sapiens"], auth_asym_ids := ["B"] }

/-- The record the amended C10 witness environment produces: the organism
field is the sorted comma-join of the two names. -/
def recC10w : EntryRecord :=
  { pdb_id := "3CCC", title := "Two organisms", method := "X-RAY DIFFRACTION"
    resolution := some 2, organism := "Homo sapiens, Mus musculus", chain_count := 2 }

/-- Witness for the amended claim C10 at a concrete enrichment. -/
theorem c10_amended_witness :
    fetch_one "3CCC" (EntryResp.data edC10w) polyC10w = some recC10w ∧
    recC10w.organism =
      (if String.intercalate ", "
            (sortStrings ((edC10w.polymer_entity_ids.flatMap
              (fun e => polyOrg (polyC10w e))).dedup)) = ""
       then "Unknown"
       else String.intercalate ", "
            (sortStrings ((edC10w.polymer_entity_ids.flatMap
              (fun e => polyOrg (polyC10w e))).dedup))) :=
  ⟨by decide, (c10_amended "3CCC" edC10w polyC10w recC10w (by decide)).1⟩

end Prot

namespace Prot

/-- Membership in the filter chain's output forces every active predicate,
and the resolution predicate unconditionally. -/
theorem mem_filterRecords {cfg : FilterConfig} {l : List EntryRecord} {r : EntryRecord}
    (h : r ∈ filterRecords cfg l) :
    r ∈ l ∧
    (cfg.only_human = true → strContains r.organism "Homo sapiens" = true) ∧
    (cfg.monomer_only = true → (r.chain_count == 1) = true) ∧
    (cfg.method_filter ≠ "Any" → strContainsCI r.method cfg.method_filter = true) ∧
    resKeep cfg.max_res r = true := by
  simp only [filterRecords] at h
  by_cases hh : cfg.only_human = true <;>
    by_cases hc : cfg.monomer_only = true <;>
      by_cases hm : cfg.method_filter = "Any" <;>
        simp only [hh, hc, hm] at h ⊢ <;>
          simp_all [List.mem_filter]

/-- The filter chain leaves a list unchanged when every element already
satisfies every active predicate and the resolution predicate. -/
theorem filterRecords_eq_self {cfg : FilterConfig} {l : List EntryRecord}
    (h1 : ∀ r ∈ l, cfg.only_human = true → strContains r.organism "Homo sapiens" = true)
    (h2 : ∀ r ∈ l, cfg.monomer_only = true → (r.chain_count == 1) = true)
    (h3 : ∀ r ∈ l, cfg.method_filter ≠ "Any" → strContainsCI r.method cfg.method_filter = true)
    (h4 : ∀ r ∈ l, resKeep cfg.max_res r = true) :
    filterRecords cfg l = l := by
  have eR := List.filter_eq_self.mpr h4
  by_cases hh : cfg.only_human = true <;>
    by_cases hc : cfg.monomer_only = true <;>
      by_cases hm : cfg.method_filter = "Any"
  · have eH := List.filter_eq_self.mpr (fun r hr => h1 r hr hh)
    have eC := List.filter_eq_self.mpr (fun r hr => h2 r hr hc)
    simp [filterRecords, hh, hc, hm, eH, eC, eR]
  · have eH := List.filter_eq_self.mpr (fun r hr => h1 r hr hh)
    have eC := List.filter_eq_self.mpr (fun r hr => h2 r hr hc)
    have eM := List.filter_eq_self.mpr (fun r hr => h3 r hr hm)
    simp [filterRecords, hh, hc, hm, eH, eC, eM, eR]
  · have eH := List.filter_eq_self.mpr (fun r hr => h1 r hr hh)
    simp [filterRecords, hh, hc, hm, eH, eR]
  · have eH := List.filter_eq_self.mpr (fun r hr => h1 r hr hh)
    have eM := List.filter_eq_self.mpr (fun r hr => h3 r hr hm)
    simp [filterRecords, hh, hc, hm, eH, eM, eR]
  · have eC := List.filter_eq_self.mpr (fun r hr => h2 r hr hc)
    simp [filterRecords, hh, hc, hm, eC, eR]
  · have eC := List.filter_eq_self.mpr (fun r hr => h2 r hr hc)
    have eM := List.filter_eq_self.mpr (fun r hr => h3 r hr hm)
    simp [filterRecords, hh, hc, hm, eC, eM, eR]
  · simp [filterRecords, hh, hc, hm, eR]
  · have eM := List.filter_eq_self.mpr (fun r hr => h3 r hr hm)
    simp [filterRecords, hh, hc, hm, eM, eR]

/-- Claim C3: for every record set and every combination of the optional
predicates, the resolution filter is applied — a record with null
resolution never appears in the output (whatever the ceiling), and every
retained record has a resolution bounded by the configured ceiling. -/
theorem c3_resolution_always (cfg : FilterConfig) (l : List EntryRecord) (r : EntryRecord)
    (h : r ∈ filterRecords cfg l) :
    r.resolution ≠ none ∧ ∃ x, r.resolution = some x ∧ x ≤ cfg.max_res := by
  have hk : resKeep cfg.max_res r = true := (mem_filterRecords h).2.2.2.2
  rcases hres : r.resolution with _ | x
  · rw [resKeep, hres] at hk
    cases hk
  · rw [resKeep, hres] at hk
    exact ⟨by simp [hres], x, rfl, of_decide_eq_true hk⟩

/-- Filter settings for the C3 witness: default sidebar settings with the
organism and monomer boxes cleared. -/
def cfgC3 : FilterConfig :=
  { only_human := false, monomer_only := false, method_filter := "Any", max_res := 3 }

/-- Witness for claim C3: a record passing the chain indeed carries a
non-null resolution bounded by the ceiling. -/
theorem c3_resolution_always_witness :
    recGood ∈ filterRecords cfgC3 [recGood] ∧
    recGood.resolution ≠ none ∧
    ∃ x, recGood.resolution = some x ∧ x ≤ cfgC3.max_res :=
  ⟨by decide, c3_resolution_always cfgC3 [recGood] recGood (by decide)⟩

/-- Claim C7: the filter chain is idempotent — filtering an already
filtered set again with the same configuration returns it unchanged. -/
theorem c7_filter_idempotent (cfg : FilterConfig) (l : List EntryRecord) :
    filterRecords cfg (filterRecords cfg l) = filterRecords cfg l :=
  filterRecords_eq_self
    (fun r hr hb => (mem_filterRecords hr).2.1 hb)
    (fun r hr hb => (mem_filterRecords hr).2.2.1 hb)
    (fun r hr hb => (mem_filterRecords hr).2.2.2.1 hb)
    (fun r hr => (mem_filterRecords hr).2.2.2.2)

end Prot

namespace Prot

/-- The nulls-last resolution order is total. -/
theorem resLE_total (x y : Option ℚ) : resLE x y = true ∨ resLE y x = true := by
  rcases x with _ | a <;> rcases y with _ | b <;> simp [resLE]
  exact le_total a b

/-- The nulls-last resolution order is transitive. -/
theorem resLE_trans {x y z : Option ℚ} (h1 : resLE x y = true) (h2 : resLE y z = true) :
    resLE x z = true := by
  rcases x with _ | a <;> rcases y with _ | b <;> rcases z with _ | c <;>
    simp_all [resLE]
  exact le_trans h1 h2

instance : IsTotal EntryRecord recLE :=
  ⟨fun a b => resLE_total a.resolution b.resolution⟩

instance : IsTrans EntryRecord recLE :=
  ⟨fun _ _ _ h1 h2 => resLE_trans h1 h2⟩

/-- A record list sorted under the resolution order passes the boolean
non-decreasing check. -/
theorem nonDecreasingRes_of_sorted :
    ∀ (l : List EntryRecord), List.Sorted recLE l → nonDecreasingRes l = true
  | [], _ => rfl
  | [_], _ => rfl
  | a :: b :: t, h => by
    rw [List.sorted_cons] at h
    have hab : resLE a.resolution b.resolution = true := h.1 b (List.mem_cons_self b t)
    have ht := nonDecreasingRes_of_sorted (b :: t) h.2
    simp [nonDecreasingRes, hab, ht]

/-- The ranked subset is sorted under the resolution order. -/
theorem rank_sorted (records : List EntryRecord) : List.Sorted recLE (rank records) :=
  List.Pairwise.sublist (List.take_sublist 3 _)
    (List.sorted_insertionSort recLE
      (records.filter (fun r => strContainsCI r.method "X-RAY")))

/-- Example input for claim C4: four X-ray records with resolutions
2.1, 1.0, 1.8 and 0.9 angstrom. -/
def exRec (i : String) (res : ℚ) : EntryRecord :=
  { pdb_id := i, title := "T", method := "X-RAY DIFFRACTION"
    resolution := some res, organism := "Homo sapiens", chain_count := 1 }

/-- The C4 example record list. -/
def c4Example : List EntryRecord :=
  [exRec "1AAA" (Rat.divInt 21 10), exRec "2BBB" 1,
   exRec "3CCC" (Rat.divInt 9 5), exRec "4DDD" (Rat.divInt 9 10)]

/-- Claim C4: `rank` keeps only records whose method contains X-RAY
case-insensitively, returns at most three records in non-decreasing order
of resolution, and on X-ray inputs with resolutions 2.1, 1.0, 1.8, 0.9 it
yields 0.9, 1.0, 1.8. -/
theorem c4_rank (records : List EntryRecord) :
    (rank records).all (fun r => strContainsCI r.method "X-RAY") = true ∧
    (rank records).length ≤ 3 ∧
    nonDecreasingRes (rank records) = true ∧
    (rank c4Example).map EntryRecord.resolution =
      [some (Rat.divInt 9 10), some 1, some (Rat.divInt 9 5)] := by
  refine ⟨?_, ?_, nonDecreasingRes_of_sorted _ (rank_sorted records), by decide⟩
  · rw [List.all_eq_true]
    intro r hr
    have hmem : r ∈ List.insertionSort recLE
        (records.filter (fun s => strContainsCI s.method "X-RAY")) :=
      List.take_subset 3 _ hr
    have hfil : r ∈ records.filter (fun s => strContainsCI s.method "X-RAY") :=
      (List.perm_insertionSort recLE _).mem_iff.mp hmem
    exact @List.of_mem_filter _ (fun s => strContainsCI s.method "X-RAY") r records hfil
  · rw [rank, List.length_take]
    exact inf_le_left

/-- Claim C9: the download section builds its pair of archives (full
filtered set and top three) exactly when the ranked X-ray subset is
non-empty; a filtered set with no X-RAY method yields no archive of either
scope. -/
theorem c9_archives_gated (fileEnv : String → Except Unit String)
    (df : List EntryRecord) :
    ((downloadArchives fileEnv df).isSome = !(rank df).isEmpty) ∧
    (df.all (fun r => !(strContainsCI r.method "X-RAY")) = true →
      downloadArchives fileEnv df = none) := by
  constructor
  · rw [downloadArchives]
    by_cases h : (rank df).isEmpty <;> simp [h]
  · intro h
    have hf : df.filter (fun r => strContainsCI r.method "X-RAY") = [] := by
      rw [List.filter_eq_nil_iff]
      intro a ha
      have := List.all_eq_true.mp h a ha
      simp_all
    rw [downloadArchives]
    simp [rank, hf]

/-- A filtered set with no X-ray record, for the C9 witness. -/
def dfC9 : List EntryRecord :=
  [{ pdb_id := "5EEE", title := "EM structure", method := "ELECTRON MICROSCOPY"
     resolution := some 3, organism := "Homo sapiens", chain_count := 1 }]

/-- A total file environment for the C9 witness. -/
def fileEnvC9 : String → Except Unit String := fun pid => Except.ok pid

/-- Witness for claim C9: with no X-RAY method in the filtered set, no
archive of either scope is produced. -/
theorem c9_archives_gated_witness :
    dfC9.all (fun r => !(strContainsCI r.method "X-RAY")) = true ∧
    downloadArchives fileEnvC9 dfC9 = none :=
  ⟨by decide, (c9_archives_gated fileEnvC9 dfC9).2 (by decide)⟩

end Prot
